import Mathlib

/-!
Shallow embedding of the BlazingMQ Python SDK session layer
(src/blazingmq/_session.py, _callbacks.py, _timeouts.py, _enums.py,
session_events.py) for checking the natural-language specification
against the code.

Python runtime values that matter to the embedded functions are modelled
explicitly: floats as exact rationals plus the special values nan and
plus/minus infinity (every finite Python float is an exact rational, and
Python compares floats with ints exactly); str and bytes property names as
a two-constructor sum normalized through the same UTF-8 encoding the code
uses; dicts as insertion-ordered association lists with replace-in-place
update, which is exactly the observable behaviour of CPython dicts.
Fallible code returns Except with a constructor per Python exception
class that the embedded code can raise.
-/

namespace BMQ

/-- A single-quote character, used when rendering Python repr output. -/
def sq : String := "\x27"

/-- A Python float: nan, plus or minus infinity, or an exact finite value.
Every finite Python float is an exact rational number. -/
inductive PyFloat where
| nan : PyFloat
| inf : PyFloat
| ninf : PyFloat
| fin (q : ℚ) : PyFloat
deriving DecidableEq, Repr

/-- IEEE-754 ordering used by Python float comparison: nan compares false
against everything, minus infinity below all non-nan values, plus infinity
above all non-nan values, finite values by their exact rational order
(Python compares a float against the int 2 to the 63 exactly). -/
def PyFloat.lt : PyFloat → PyFloat → Bool
| .nan, _ => false
| _, .nan => false
| .ninf, .ninf => false
| .ninf, _ => true
| _, .ninf => false
| .fin a, .fin b => decide (a < b)
| .fin _, .inf => true
| .inf, _ => false

/-- The Python exceptions raisable by the embedded fragment. -/
inductive PyError where
| bmqError (msg : String) : PyError
| valueErr (msg : String) (val : PyFloat) : PyError
| keyErr : PyError
| assertionErr : PyError
| unboundLocalErr : PyError
deriving DecidableEq, Repr

/-- Truth of a Python Optional bool as used in a Python if statement:
None and False are falsy, True is truthy. -/
def truthyOptBool (o : Option Bool) : Bool := o.getD false

/-- A timeout argument as received by the Python layer: the DEFAULT_TIMEOUT
sentinel (a distinguished float instance compared by identity), None, or an
ordinary float value. -/
inductive TimeoutArg where
| defaultSentinel : TimeoutArg
| pyNone : TimeoutArg
| val (f : PyFloat) : TimeoutArg
deriving DecidableEq, Repr

/-- Embedding of blazingmq._session._convert_timeout: the DEFAULT_TIMEOUT
sentinel and None become None; otherwise the value is accepted exactly when
0.0 < timeout < 2 ** 63, and a ValueError is raised otherwise. -/
def convertTimeout : TimeoutArg → Except PyError (Option PyFloat)
| .defaultSentinel => .ok none
| .pyNone => .ok none
| .val f =>
    if PyFloat.lt (.fin 0) f && PyFloat.lt f (.fin (2 ^ 63)) then .ok (some f)
    else .error (.valueErr "timeout must be greater than 0.0, was" f)

/-- The five fields of a blazingmq.Timeouts instance as passed by the user
(each field is Optional[float] and may also hold the DEFAULT_TIMEOUT
sentinel, which is itself a float). -/
structure TimeoutsArgs where
  connectTimeout : TimeoutArg
  disconnectTimeout : TimeoutArg
  openQueueTimeout : TimeoutArg
  configureQueueTimeout : TimeoutArg
  closeQueueTimeout : TimeoutArg
deriving DecidableEq, Repr

/-- A validated Timeouts value as handed to the Cython layer: each field is
either None (use the engine default) or an in-range float. -/
structure ValidatedTimeouts where
  connectTimeout : Option PyFloat
  disconnectTimeout : Option PyFloat
  openQueueTimeout : Option PyFloat
  configureQueueTimeout : Option PyFloat
  closeQueueTimeout : Option PyFloat
deriving DecidableEq, Repr

/-- Embedding of blazingmq._session._validate_timeouts: convert each of the
five fields with _convert_timeout, in the keyword order of the Timeouts
constructor call, propagating the first ValueError. -/
def validateTimeouts (t : TimeoutsArgs) : Except PyError ValidatedTimeouts :=
  match convertTimeout t.connectTimeout with
  | .error e => .error e
  | .ok c =>
    match convertTimeout t.disconnectTimeout with
    | .error e => .error e
    | .ok d =>
      match convertTimeout t.openQueueTimeout with
      | .error e => .error e
      | .ok o =>
        match convertTimeout t.configureQueueTimeout with
        | .error e => .error e
        | .ok g =>
          match convertTimeout t.closeQueueTimeout with
          | .error e => .error e
          | .ok l => .ok ⟨c, d, o, g, l⟩

/-- The timeout argument of the Session constructor: either a Timeouts
instance or a plain float (the DEFAULT_TIMEOUT sentinel being a float). -/
inductive SessionTimeoutArg where
| asTimeouts (t : TimeoutsArgs) : SessionTimeoutArg
| asFloat (t : TimeoutArg) : SessionTimeoutArg
deriving DecidableEq, Repr

/-- Embedding of the timeout handling in blazingmq._session.Session.__init__:
a non-Timeouts argument is wrapped into a Timeouts instance setting only the
open_queue, configure_queue and close_queue fields (connect and disconnect
keep their None default), and the result is passed through
_validate_timeouts. -/
def sessionInitTimeouts : SessionTimeoutArg → Except PyError ValidatedTimeouts
| .asTimeouts t => validateTimeouts t
| .asFloat t => validateTimeouts ⟨.pyNone, .pyNone, t, t, t⟩

/-! ## Property codec: blazingmq._session._collect_properties_and_types -/

/-- UTF-8 encoding of a Lean string as a list of byte values, mirroring the
encode method with encoding utf-8 on a Python str (and six.ensure_binary,
which performs the same encoding). -/
def utf8Bytes (s : String) : List Nat :=
  (s.data.map (fun c => (String.utf8EncodeChar c).map (fun b => b.toNat))).flatten

/-- A property or override name as supplied by the user: Python str or
Python bytes. -/
inductive PyName where
| nstr (s : String) : PyName
| nbytes (b : List Nat) : PyName
deriving DecidableEq, Repr

/-- Embedding of six.ensure_binary: a str is UTF-8 encoded, bytes are kept
as they are.  This is the key normalization under which str and bytes names
collide in the property dictionaries. -/
def ensureBinary : PyName → List Nat
| .nstr s => utf8Bytes s
| .nbytes b => b

/-- Python repr of a name as interpolated by the percent-r format in the
error messages.  Escape sequences for non-printable bytes are not modelled;
the embedding renders each byte as the character with that code point. -/
def PyName.pyRepr : PyName → String
| .nstr s => sq ++ s ++ sq
| .nbytes b => "b" ++ sq ++ String.mk (b.map Char.ofNat) ++ sq

/-- A Python value passed as a message property.  vother stands for a value
of any type outside bool, int, str and bytes and carries the type name that
the error message interpolates. -/
inductive PyValue where
| vbool (b : Bool) : PyValue
| vint (n : ℤ) : PyValue
| vstr (s : String) : PyValue
| vbytes (b : List Nat) : PyValue
| vother (tyName : String) : PyValue
deriving DecidableEq, Repr

/-- Embedding of isinstance(val, bool). -/
def PyValue.isinstBool : PyValue → Bool
| .vbool _ => true
| _ => false

/-- Embedding of isinstance(val, int).  In Python bool is a subclass of
int, so a bool value satisfies this check as well; only the order of the
checks in _collect_properties_and_types keeps booleans out of INT64. -/
def PyValue.isinstInt : PyValue → Bool
| .vbool _ => true
| .vint _ => true
| _ => false

/-- Embedding of isinstance(val, str). -/
def PyValue.isinstStr : PyValue → Bool
| .vstr _ => true
| _ => false

/-- Embedding of isinstance(val, bytes). -/
def PyValue.isinstBytes : PyValue → Bool
| .vbytes _ => true
| _ => false

/-- Python type(val).__name__ for the modelled values. -/
def PyValue.typeName : PyValue → String
| .vbool _ => "bool"
| .vint _ => "int"
| .vstr _ => "str"
| .vbytes _ => "bytes"
| .vother ty => ty

/-- The BlazingMQ property type enum (blazingmq._enums.PropertyType).  The
Cython extension relabels members to integer wire codes through the fixed
bijective PROPERTY_TYPES_FROM_PY_MAPPING; the embedding keeps the enum
member itself as the tag. -/
inductive PropertyType where
| BOOL : PropertyType
| CHAR : PropertyType
| SHORT : PropertyType
| INT32 : PropertyType
| INT64 : PropertyType
| STRING : PropertyType
| BINARY : PropertyType
deriving DecidableEq, Repr

/-- Embedding of the default-type inference chain at the top of the loop in
_collect_properties_and_types: bool, then int, then str, then bytes, in the
order of the source elif chain; any other value raises Error. -/
def inferDefaultType (v : PyValue) : Except PyError PropertyType :=
  if v.isinstBool then .ok .BOOL
  else if v.isinstInt then .ok .INT64
  else if v.isinstStr then .ok .STRING
  else if v.isinstBytes then .ok .BINARY
  else .error (.bmqError
    ("Property values of type " ++ sq ++ v.typeName ++ sq ++ " are not supported"))

/-- Lookup in an association list modelling a Python dict (keys are unique
by construction, so first match is the match). -/
def lookupA {κ α : Type} [DecidableEq κ] : List (κ × α) → κ → Option α
| [], _ => none
| (k, v) :: rest, key => if k = key then some v else lookupA rest key

/-- Insertion or in-place replacement in an association list, modelling
assignment into a Python dict: an existing key keeps its position and gets
the new value, a new key is appended. -/
def upsert {κ α : Type} [DecidableEq κ] : List (κ × α) → κ → α → List (κ × α)
| [], key, v => [(key, v)]
| (k, w) :: rest, key, v =>
    if k = key then (key, v) :: rest else (k, w) :: upsert rest key v

/-- Embedding of the first loop of _collect_properties_and_types: for each
supplied property, in dict order, infer the default type (raising for an
unsupported value type), normalize the name with six.ensure_binary, and
record value and type in the two dicts. -/
def collectPhase1 :
    List (PyName × PyValue) → List (List Nat × PyValue) →
    List (List Nat × PropertyType) →
    Except PyError (List (List Nat × PyValue) × List (List Nat × PropertyType))
| [], vals, types => .ok (vals, types)
| (name, val) :: rest, vals, types =>
    match inferDefaultType val with
    | .error e => .error e
    | .ok ty =>
        let nameBytes := ensureBinary name
        collectPhase1 rest (upsert vals nameBytes val) (upsert types nameBytes ty)

/-- Embedding of the override loop of _collect_properties_and_types: each
override name is normalized with six.ensure_binary; a name with no recorded
property type raises Error, otherwise the recorded type is replaced. -/
def applyOverrides (types : List (List Nat × PropertyType)) :
    List (PyName × PropertyType) → Except PyError (List (List Nat × PropertyType))
| [] => .ok types
| (name, overrideType) :: rest =>
    let nameBytes := ensureBinary name
    if (lookupA types nameBytes).isNone then
      .error (.bmqError ("Received override for non-existent property " ++ name.pyRepr))
    else applyOverrides (upsert types nameBytes overrideType) rest

/-- Embedding of the value encoding in the final loop of
_collect_properties_and_types: a str value under the STRING tag is UTF-8
encoded on the way out; every other value is passed through unchanged. -/
def encodeVal (v : PyValue) (ty : PropertyType) : PyValue :=
  if ty = .STRING && v.isinstStr then
    match v with
    | .vstr s => .vbytes (utf8Bytes s)
    | w => w
  else v

/-- Embedding of the final loop of _collect_properties_and_types: pair each
recorded value, in dict order, with its recorded type (the dict indexing is
modelled as the fallible lookup it is in Python) and encode it. -/
def mergeAll (types : List (List Nat × PropertyType)) :
    List (List Nat × PyValue) →
    Except PyError (List (List Nat × PyValue × PropertyType))
| [] => .ok []
| (nameBytes, v) :: rest =>
    match lookupA types nameBytes with
    | none => .error .keyErr
    | some ty =>
        match mergeAll types rest with
        | .error e => .error e
        | .ok tail => .ok ((nameBytes, encodeVal v ty, ty) :: tail)

/-- Embedding of blazingmq._session._collect_properties_and_types. -/
def collectPropertiesAndTypes (properties : List (PyName × PyValue))
    (propertyTypeOverrides : List (PyName × PropertyType)) :
    Except PyError (List (List Nat × PyValue × PropertyType)) :=
  match collectPhase1 properties [] [] with
  | .error e => .error e
  | .ok (vals, types) =>
    match applyOverrides types propertyTypeOverrides with
    | .error e => .error e
    | .ok types2 => mergeAll types2 vals

/-! ## Session operations: blazingmq._session.Session -/

/-- The arguments of the engine call self._ext.post made by Session.post. -/
structure PostCall where
  queueUri : List Nat
  message : List Nat
  properties : Option (List (List Nat × PyValue × PropertyType))
  hasOnAck : Bool
deriving DecidableEq, Repr

/-- Embedding of blazingmq._session.Session.post: when properties or
overrides are supplied (Python truthiness: a non-empty dict), run them
through _collect_properties_and_types, raising any error before the engine
call; the result on success is the engine call made. -/
def post (queueUri : String) (message : List Nat)
    (properties : List (PyName × PyValue))
    (propertyTypeOverrides : List (PyName × PropertyType))
    (hasOnAck : Bool) : Except PyError PostCall :=
  if !properties.isEmpty || !propertyTypeOverrides.isEmpty then
    match collectPropertiesAndTypes properties propertyTypeOverrides with
    | .error e => .error e
    | .ok p => .ok ⟨ensureBinary (.nstr queueUri), message, some p, hasOnAck⟩
  else .ok ⟨ensureBinary (.nstr queueUri), message, none, hasOnAck⟩

/-- The per-session state consulted by the open_queue and configure_queue
validations: Session._has_no_on_message and the extension session flag
monitor_host_health (fixed at construction: true unless
host_health_monitor=None was passed). -/
structure SessionState where
  hasNoOnMessage : Bool
  monitorHostHealth : Bool
deriving DecidableEq, Repr

/-- A blazingmq.QueueOptions value: every field optional, defaulting to
None. -/
structure QueueOptionsM where
  maxUnconfirmedMessages : Option ℤ
  maxUnconfirmedBytes : Option ℤ
  consumerPriority : Option ℤ
  suspendsOnBadHostHealth : Option Bool
deriving DecidableEq, Repr

/-- QueueOptions() with every field at its None default. -/
def QueueOptionsM.defaults : QueueOptionsM := ⟨none, none, none, none⟩

/-- The arguments of the engine call self._ext.open_queue_sync. -/
structure OpenQueueCall where
  queueUri : List Nat
  read : Bool
  write : Bool
  consumerPriority : Option ℤ
  maxUnconfirmedMessages : Option ℤ
  maxUnconfirmedBytes : Option ℤ
  suspendsOnBadHostHealth : Option Bool
  timeout : Option PyFloat
deriving DecidableEq, Repr

/-- Embedding of blazingmq._session.Session.open_queue: raise Error if read
was requested with no on_message callback supplied at construction; raise
Error if the options set suspends_on_bad_host_health (Python truthiness)
while host-health monitoring is disabled; then convert the timeout (which
may raise ValueError) and issue the engine call. -/
def openQueue (s : SessionState) (queueUri : String) (read write : Bool)
    (options : QueueOptionsM) (timeout : TimeoutArg) :
    Except PyError OpenQueueCall :=
  if read && s.hasNoOnMessage then
    .error (.bmqError
      ("Can" ++ sq ++ "t open queue " ++ queueUri ++ " in read mode: no on_message " ++
        "callback was provided at Session construction"))
  else if truthyOptBool options.suspendsOnBadHostHealth && !s.monitorHostHealth then
    .error (.bmqError
      ("Queues cannot use suspends_on_bad_host_health if host health" ++
        " monitoring was disabled when the Session was created"))
  else
    match convertTimeout timeout with
    | .error e => .error e
    | .ok t =>
      .ok ⟨ensureBinary (.nstr queueUri), read, write, options.consumerPriority,
        options.maxUnconfirmedMessages, options.maxUnconfirmedBytes,
        options.suspendsOnBadHostHealth, t⟩

/-- The arguments of the engine call self._ext.close_queue_sync. -/
structure CloseQueueCall where
  queueUri : List Nat
  timeout : Option PyFloat
deriving DecidableEq, Repr

/-- Embedding of blazingmq._session.Session.close_queue. -/
def closeQueue (queueUri : String) (timeout : TimeoutArg) :
    Except PyError CloseQueueCall :=
  match convertTimeout timeout with
  | .error e => .error e
  | .ok t => .ok ⟨ensureBinary (.nstr queueUri), t⟩

/-- The arguments of the engine call self._ext.configure_queue_sync. -/
structure ConfigureQueueCall where
  queueUri : List Nat
  consumerPriority : Option ℤ
  maxUnconfirmedMessages : Option ℤ
  maxUnconfirmedBytes : Option ℤ
  suspendsOnBadHostHealth : Option Bool
  timeout : Option PyFloat
deriving DecidableEq, Repr

/-- Embedding of blazingmq._session.Session.configure_queue: raise Error if
the options set suspends_on_bad_host_health while host-health monitoring is
disabled; then convert the timeout and issue the engine call. -/
def configureQueue (s : SessionState) (queueUri : String)
    (options : QueueOptionsM) (timeout : TimeoutArg) :
    Except PyError ConfigureQueueCall :=
  if truthyOptBool options.suspendsOnBadHostHealth && !s.monitorHostHealth then
    .error (.bmqError
      ("Queues cannot use suspends_on_bad_host_health if host health" ++
        " monitoring was disabled when the Session was created"))
  else
    match convertTimeout timeout with
    | .error e => .error e
    | .ok t =>
      .ok ⟨ensureBinary (.nstr queueUri), options.consumerPriority,
        options.maxUnconfirmedMessages, options.maxUnconfirmedBytes,
        options.suspendsOnBadHostHealth, t⟩

/-! ## Dispatch callbacks: blazingmq._callbacks -/

/-- The session event classes of blazingmq.session_events. -/
inductive EventClass where
| Connected : EventClass
| Disconnected : EventClass
| ConnectionLost : EventClass
| Reconnected : EventClass
| StateRestored : EventClass
| ConnectionTimeout : EventClass
| HostUnhealthy : EventClass
| HostHealthRestored : EventClass
| QueueSuspended : EventClass
| QueueSuspendFailed : EventClass
| QueueResumed : EventClass
| QueueResumeFailed : EventClass
| QueueReopened : EventClass
| QueueReopenFailed : EventClass
| SlowConsumerNormal : EventClass
| SlowConsumerHighWaterMark : EventClass
| ErrorEvent : EventClass
| InterfaceError : EventClass
deriving DecidableEq, Repr

/-- Embedding of issubclass(event_cls, QueueEvent): true exactly for the
six per-queue event classes. -/
def EventClass.isQueueEvent : EventClass → Bool
| .QueueSuspended => true
| .QueueSuspendFailed => true
| .QueueResumed => true
| .QueueResumeFailed => true
| .QueueReopened => true
| .QueueReopenFailed => true
| _ => false

/-- Embedding of the failure_class_by_success_class dict in
on_session_event, as a fallible lookup (indexing a key outside the dict
raises KeyError in Python). -/
def failureClassBySuccessClass : EventClass → Option EventClass
| .QueueReopened => some .QueueReopenFailed
| .QueueResumed => some .QueueResumeFailed
| .QueueSuspended => some .QueueSuspendFailed
| _ => none

/-- A constructed session event as delivered to the user callback: either a
plain SessionEvent (class and optional message) or a QueueEvent (class,
queue URI and optional message). -/
inductive SessionEventV where
| plain (cls : EventClass) (msg : Option String) : SessionEventV
| queueEv (cls : EventClass) (queueUri : String) (msg : Option String) : SessionEventV
deriving DecidableEq, Repr

/-- Embedding of blazingmq._callbacks.on_session_event.  The inputs mirror
the source: the event-type mapping handed in by the extension, the error
description, and the optional SDK event tuple (event type code, event name,
status code, status name, queue URI); byte-string inputs appear already
decoded as strings.  The result is the single event delivered to the user
callback, or the Python exception raised while constructing it. -/
def onSessionEvent (eventTypeMapping : List (Int × EventClass))
    (errorDescription : String)
    (sdkEvent : Option (Int × String × Int × String × String)) :
    Except PyError SessionEventV :=
  match sdkEvent with
  | none => .ok (.plain .InterfaceError (some errorDescription))
  | some (eventType, eventName, statusCode, statusName, queueUri) =>
    let eventCls := (lookupA eventTypeMapping eventType).getD .InterfaceError
    let msg : Option String :=
      if eventCls = .InterfaceError then
        some ("Unexpected event type: " ++ eventName)
      else if statusCode ≠ 0 then
        some (errorDescription ++ (if errorDescription ≠ "" then ": " else "") ++
          statusName ++ " (" ++ toString statusCode ++ ")")
      else none
    if eventCls.isQueueEvent then
      match (if statusCode ≠ 0 then failureClassBySuccessClass eventCls
             else some eventCls) with
      | none => .error .keyErr
      | some finalCls =>
        if queueUri = "" then .error .assertionErr
        else .ok (.queueEv finalCls queueUri msg)
    else .ok (.plain eventCls msg)

/-- Embedding of blazingmq._callbacks.on_message_create_interface_error:
the event it delivers to the user session-event callback. -/
def onMessageCreateInterfaceError : SessionEventV :=
  .plain .InterfaceError (some "Messages received but no callback configured")

/-- The blazingmq.AckStatus enum. -/
inductive AckStatus where
| SUCCESS : AckStatus
| UNKNOWN : AckStatus
| TIMEOUT : AckStatus
| NOT_CONNECTED : AckStatus
| CANCELED : AckStatus
| NOT_SUPPORTED : AckStatus
| REFUSED : AckStatus
| INVALID_ARGUMENT : AckStatus
| NOT_READY : AckStatus
| LIMIT_BYTES : AckStatus
| LIMIT_MESSAGES : AckStatus
| STORAGE_FAILURE : AckStatus
| UNRECOGNIZED : AckStatus
deriving DecidableEq, Repr

/-- An Ack value as constructed by blazingmq._messages.create_ack: optional
GUID bytes, status, decoded status description, decoded queue URI. -/
structure AckV where
  guid : Option (List Nat)
  status : AckStatus
  statusDescription : String
  queueUri : String
deriving DecidableEq, Repr

/-- One entry of the batch handed to on_ack, in the source tuple order:
status, status description, optional GUID, queue URI, user callback.  The
callback is not interpreted by the embedding and is represented by an
identifier of an arbitrary type. -/
structure AckEntry (β : Type) where
  status : Int
  statusDescription : String
  guid : Option (List Nat)
  queueUri : String
  userCallback : β
deriving DecidableEq, Repr

/-- Embedding of blazingmq._callbacks.on_ack: for each batch entry, in
batch order, invoke the callback of that entry once with the Ack built from the
entry, mapping the wire status through the mapping with UNRECOGNIZED as the
default.  The result lists the invocations performed, in order. -/
def onAck {β : Type} (ackStatusMapping : List (Int × AckStatus))
    (acks : List (AckEntry β)) : List (β × AckV) :=
  acks.map (fun a =>
    (a.userCallback,
      ⟨a.guid, (lookupA ackStatusMapping a.status).getD .UNRECOGNIZED,
        a.statusDescription, a.queueUri⟩))

/-- One entry of the batch handed to on_message: payload, GUID, queue URI
(decoded), and the properties tuple of value dict and wire-type-code
dict. -/
structure MsgEntry where
  data : List Nat
  guid : List Nat
  queueUri : String
  propValues : List (String × PyValue)
  propTypeCodes : List (String × Int)
deriving DecidableEq, Repr

/-- A Message value as constructed by create_message. -/
structure MessageV where
  data : List Nat
  guid : List Nat
  queueUri : String
  properties : List (String × PyValue)
  propertyTypes : List (String × PropertyType)
deriving DecidableEq, Repr

/-- The observable outcome of one on_message invocation that did not raise:
the messages delivered to the user callback in order, the deadlock
diagnostic written to stderr if any, and whether the process was aborted by
os.abort. -/
structure OnMessageResult where
  delivered : List MessageV
  diagnostic : Option String
  aborted : Bool
deriving DecidableEq, Repr

/-- Helper of on_message: build the per-message property-type dict by
mapping each wire code through property_type_to_py (a missing code raises
KeyError, as Python dict indexing does). -/
def decodePropTypes (propertyTypeToPy : List (Int × PropertyType)) :
    List (String × Int) → Except PyError (List (String × PropertyType))
| [] => .ok []
| (k, code) :: rest =>
    match lookupA propertyTypeToPy code with
    | none => .error .keyErr
    | some ty =>
        match decodePropTypes propertyTypeToPy rest with
        | .error e => .error e
        | .ok tail => .ok ((k, ty) :: tail)

/-- Embedding of the delivery loop of blazingmq._callbacks.on_message: for
each batch entry, in order, build the Message (decoding its property type
codes) and hand it with a fresh MessageHandle to the user callback.  The
result lists the messages delivered, in order; an exception while building
a message propagates out of the dispatch entry point. -/
def deliverBatch (propertyTypeToPy : List (Int × PropertyType)) :
    List MsgEntry → Except PyError (List MessageV)
| [] => .ok []
| m :: rest =>
    match decodePropTypes propertyTypeToPy m.propTypeCodes with
    | .error e => .error e
    | .ok tys =>
        match deliverBatch propertyTypeToPy rest with
        | .error e => .error e
        | .ok tail => .ok (⟨m.data, m.guid, m.queueUri, m.propValues, tys⟩ :: tail)

/-- Embedding of blazingmq._callbacks.on_message.  The extSessionAlive flag
models the weakref dereference checked by the assert; refcountAfterBatch
models the value sys.getrefcount returns on the extension session after the
batch has been delivered and the local MessageHandle reference dropped.  An
empty batch leaves the message_handle local unbound, so the del statement
raises UnboundLocalError before the refcount check.  When the refcount is
exactly 2, the code prints a deadlock diagnostic to stderr and aborts the
process with os.abort. -/
def onMessage (extSessionAlive : Bool)
    (propertyTypeToPy : List (Int × PropertyType))
    (messages : List MsgEntry) (refcountAfterBatch : Nat) :
    Except PyError OnMessageResult :=
  if !extSessionAlive then .error .assertionErr
  else
    match deliverBatch propertyTypeToPy messages with
    | .error e => .error e
    | .ok delivered =>
      if messages.isEmpty then .error .unboundLocalErr
      else if refcountAfterBatch = 2 then
        .ok ⟨delivered,
          some "Deadlock detected by blazingmq after calling the message callback; aborting process.",
          true⟩
      else .ok ⟨delivered, none, false⟩

/-! ## Host-Health Bridge (implemented in the Cython extension, not under
src; modelled from the spec) -/

/-- An open queue as seen by the Host-Health Bridge: its URI and its
suspends_on_bad_host_health setting. -/
structure BridgeQueue where
  uri : String
  suspendsOnBadHostHealth : Bool
deriving DecidableEq, Repr

/-- Modelled from the spec: the transition to Unhealthy of the Host-Health
Bridge, which lives in the Cython extension and is not under src.  For
every currently open queue with suspends_on_bad_host_health = true, in
order, suspension is attempted (suspendOk gives the per-queue outcome) and
QueueSuspended or QueueSuspendFailed is emitted, one event per queue, all
before the single HostUnhealthy event. -/
def bridgeUnhealthyEvents (queues : List BridgeQueue)
    (suspendOk : String → Bool) : List SessionEventV :=
  ((queues.filter (fun q => q.suspendsOnBadHostHealth)).map (fun q =>
    if suspendOk q.uri then .queueEv .QueueSuspended q.uri none
    else .queueEv .QueueSuspendFailed q.uri none)) ++
    [.plain .HostUnhealthy none]

/-- Modelled from the spec: the transition back to Healthy of the
Host-Health Bridge.  For every queue suspended by the unhealthy transition,
in order, resumption is attempted and QueueResumed or QueueResumeFailed is
emitted, one event per queue, all before the single HostHealthRestored
event. -/
def bridgeHealthyEvents (queues : List BridgeQueue)
    (resumeOk : String → Bool) : List SessionEventV :=
  ((queues.filter (fun q => q.suspendsOnBadHostHealth)).map (fun q =>
    if resumeOk q.uri then .queueEv .QueueResumed q.uri none
    else .queueEv .QueueResumeFailed q.uri none)) ++
    [.plain .HostHealthRestored none]

/-- Modelled from the spec: the full event trace of one unhealthy-then-
healthy host-health cycle with the given open queues. -/
def bridgeCycleEvents (queues : List BridgeQueue)
    (suspendOk resumeOk : String → Bool) : List SessionEventV :=
  bridgeUnhealthyEvents queues suspendOk ++ bridgeHealthyEvents queues resumeOk

/-! ## Proof-side helper predicates (not part of the embedding) -/

/-- Proof helper: every value recorded in the values dict has its inferred
default type recorded in the types dict under the same key. -/
def InferredOk (vals : List (List Nat × PyValue))
    (types : List (List Nat × PropertyType)) : Prop :=
  ∀ k v, lookupA vals k = some v →
    ∃ t, inferDefaultType v = Except.ok t ∧ lookupA types k = some t

/-- Proof helper: the keys of an association list are pairwise distinct, as
they are for any list built from Python-dict updates. -/
def KeysNodup {κ α : Type} (l : List (κ × α)) : Prop := (l.map Prod.fst).Nodup

/-- Proof helper: the acceptance predicate of the timeout range check, on
the specification side: a timeout is in range exactly when it is a finite
float strictly between 0 and 2 to the 63. -/
def TimeoutInRange (f : PyFloat) : Prop :=
  ∃ q : ℚ, f = .fin q ∧ 0 < q ∧ q < 2 ^ 63

end BMQ

namespace BMQ

/-! ## Helper lemmas -/

theorem lookupA_upsert {κ α : Type} [DecidableEq κ] (l : List (κ × α))
    (k : κ) (v : α) (k2 : κ) :
    lookupA (upsert l k v) k2 = if k2 = k then some v else lookupA l k2 := by
  induction l with
  | nil =>
    simp only [upsert, lookupA]
    by_cases h : k2 = k
    · subst h; simp
    · rw [if_neg (fun hh => h hh.symm), if_neg h]
  | cons p t ih =>
    obtain ⟨a, b⟩ := p
    by_cases hak : a = k <;> by_cases h2 : k2 = k <;> by_cases h3 : a = k2 <;>
      simp_all [upsert, lookupA]

theorem convertTimeout_ok_iff (f : PyFloat) :
    convertTimeout (.val f) = .ok (some f) ↔ TimeoutInRange f := by
  cases f with
  | nan => simp [convertTimeout, PyFloat.lt, TimeoutInRange]
  | inf => simp [convertTimeout, PyFloat.lt, TimeoutInRange]
  | ninf => simp [convertTimeout, PyFloat.lt, TimeoutInRange]
  | fin q =>
    by_cases h1 : (0 : ℚ) < q <;> by_cases h2 : q < 2 ^ 63 <;>
      simp_all [convertTimeout, PyFloat.lt, TimeoutInRange]

theorem convertTimeout_error_of_not_in_range (f : PyFloat)
    (h : ¬ TimeoutInRange f) :
    convertTimeout (.val f) =
      .error (.valueErr "timeout must be greater than 0.0, was" f) := by
  cases f with
  | nan => simp [convertTimeout, PyFloat.lt]
  | inf => simp [convertTimeout, PyFloat.lt]
  | ninf => simp [convertTimeout, PyFloat.lt]
  | fin q =>
    by_cases h1 : (0 : ℚ) < q <;> by_cases h2 : q < 2 ^ 63 <;>
      simp_all [convertTimeout, PyFloat.lt, TimeoutInRange]

/-! ## Claim theorems -/

/-- C2: for open_queue, configure_queue, close_queue and session
construction, an explicitly supplied timeout t is accepted exactly when it
is a finite float with 0 < t < 2 to the 63 (so 0, negative values, values
at or above 2 to the 63, nan and infinities all raise ValueError before any
engine call), while the DEFAULT_TIMEOUT sentinel and None are converted to
None so the session-level default applies; each operation propagates the
conversion outcome unchanged into its engine call. -/
theorem timeout_validation_all_operations :
    (∀ f : PyFloat, convertTimeout (.val f) = .ok (some f) ↔ TimeoutInRange f) ∧
    (∀ f : PyFloat, ¬ TimeoutInRange f →
      convertTimeout (.val f) =
        .error (.valueErr "timeout must be greater than 0.0, was" f)) ∧
    convertTimeout .defaultSentinel = .ok none ∧
    convertTimeout .pyNone = .ok none ∧
    (∀ s uri read write opts t,
      (read && s.hasNoOnMessage) = false →
      (truthyOptBool opts.suspendsOnBadHostHealth && !s.monitorHostHealth) = false →
      (∀ e, convertTimeout t = .error e →
        openQueue s uri read write opts t = .error e) ∧
      (∀ o, convertTimeout t = .ok o →
        openQueue s uri read write opts t =
          .ok ⟨utf8Bytes uri, read, write, opts.consumerPriority,
            opts.maxUnconfirmedMessages, opts.maxUnconfirmedBytes,
            opts.suspendsOnBadHostHealth, o⟩)) ∧
    (∀ uri t,
      (∀ e, convertTimeout t = .error e → closeQueue uri t = .error e) ∧
      (∀ o, convertTimeout t = .ok o →
        closeQueue uri t = .ok ⟨utf8Bytes uri, o⟩)) ∧
    (∀ s uri opts t,
      (truthyOptBool opts.suspendsOnBadHostHealth && !s.monitorHostHealth) = false →
      (∀ e, convertTimeout t = .error e →
        configureQueue s uri opts t = .error e) ∧
      (∀ o, convertTimeout t = .ok o →
        configureQueue s uri opts t =
          .ok ⟨utf8Bytes uri, opts.consumerPriority,
            opts.maxUnconfirmedMessages, opts.maxUnconfirmedBytes,
            opts.suspendsOnBadHostHealth, o⟩)) ∧
    (∀ t : TimeoutArg,
      (∀ e, convertTimeout t = .error e →
        validateTimeouts ⟨t, t, t, t, t⟩ = .error e) ∧
      (∀ o, convertTimeout t = .ok o →
        validateTimeouts ⟨t, t, t, t, t⟩ = .ok ⟨o, o, o, o, o⟩)) := by
  refine ⟨convertTimeout_ok_iff, convertTimeout_error_of_not_in_range, rfl, rfl,
    ?_, ?_, ?_, ?_⟩
  · intro s uri read write opts t h1 h2
    constructor
    · intro e he; simp [openQueue, h1, h2, he, ensureBinary]
    · intro o ho; simp [openQueue, h1, h2, ho, ensureBinary]
  · intro uri t
    constructor
    · intro e he; simp [closeQueue, he, ensureBinary]
    · intro o ho; simp [closeQueue, ho, ensureBinary]
  · intro s uri opts t h2
    constructor
    · intro e he; simp [configureQueue, h2, he, ensureBinary]
    · intro o ho; simp [configureQueue, h2, ho, ensureBinary]
  · intro t
    constructor
    · intro e he; simp [validateTimeouts, he]
    · intro o ho; simp [validateTimeouts, ho]

/-- Witness for C2 at concrete inputs: the timeout 5.0 is accepted and
flows into the close_queue engine call, while 0.0, -1.0, 2 to the 63, nan
and infinity are each rejected with a ValueError. -/
theorem timeout_validation_all_operations_witness :
    convertTimeout (.val (.fin 5)) = .ok (some (.fin 5)) ∧
    closeQueue "q" (.val (.fin 5)) = .ok ⟨utf8Bytes "q", some (.fin 5)⟩ ∧
    convertTimeout (.val (.fin 0)) =
      .error (.valueErr "timeout must be greater than 0.0, was" (.fin 0)) ∧
    convertTimeout (.val (.fin (-1))) =
      .error (.valueErr "timeout must be greater than 0.0, was" (.fin (-1))) ∧
    convertTimeout (.val (.fin (2 ^ 63))) =
      .error (.valueErr "timeout must be greater than 0.0, was" (.fin (2 ^ 63))) ∧
    convertTimeout (.val .nan) =
      .error (.valueErr "timeout must be greater than 0.0, was" .nan) ∧
    convertTimeout (.val .inf) =
      .error (.valueErr "timeout must be greater than 0.0, was" .inf) := by
  have h := timeout_validation_all_operations
  refine ⟨(h.1 (.fin 5)).mpr ⟨5, rfl, by norm_num, by norm_num⟩, ?_, ?_, ?_, ?_, ?_, ?_⟩
  · exact (h.2.2.2.2.2.1 "q" (.val (.fin 5))).2 (some (.fin 5))
      ((h.1 (.fin 5)).mpr ⟨5, rfl, by norm_num, by norm_num⟩)
  · exact h.2.1 (.fin 0) (by rintro ⟨q, hq, h0, _⟩; cases hq; exact absurd h0 (by norm_num))
  · exact h.2.1 (.fin (-1)) (by rintro ⟨q, hq, h0, _⟩; cases hq; exact absurd h0 (by norm_num))
  · exact h.2.1 (.fin (2 ^ 63)) (by rintro ⟨q, hq, _, hlt⟩; cases hq; exact absurd hlt (by norm_num))
  · exact h.2.1 .nan (by rintro ⟨q, hq, _, _⟩; cases hq)
  · exact h.2.1 .inf (by rintro ⟨q, hq, _, _⟩; cases hq)

/-- C10: constructing a Session with a plain float timeout applies that
value only to the open-queue, configure-queue and close-queue timeouts,
leaving the connect and disconnect timeouts None (engine defaults), and the
float is still range-validated: an in-range value lands in exactly those
three fields and an out-of-range value raises ValueError. -/
theorem session_float_timeout_scope :
    (∀ f : PyFloat, TimeoutInRange f →
      sessionInitTimeouts (.asFloat (.val f)) =
        .ok ⟨none, none, some f, some f, some f⟩) ∧
    (∀ f : PyFloat, ¬ TimeoutInRange f →
      sessionInitTimeouts (.asFloat (.val f)) =
        .error (.valueErr "timeout must be greater than 0.0, was" f)) ∧
    sessionInitTimeouts (.asFloat .defaultSentinel) =
      .ok ⟨none, none, none, none, none⟩ := by
  refine ⟨?_, ?_, rfl⟩
  · intro f hf
    have h := (convertTimeout_ok_iff f).mpr hf
    simp [convertTimeout] at h
    simp [sessionInitTimeouts, validateTimeouts, convertTimeout, h]
  · intro f hf
    cases f with
    | nan => simp [sessionInitTimeouts, validateTimeouts, convertTimeout, PyFloat.lt]
    | inf => simp [sessionInitTimeouts, validateTimeouts, convertTimeout, PyFloat.lt]
    | ninf => simp [sessionInitTimeouts, validateTimeouts, convertTimeout, PyFloat.lt]
    | fin q =>
      have hq : ¬((0 : ℚ) < q ∧ q < 2 ^ 63) := by
        intro hc
        exact hf ⟨q, rfl, hc.1, hc.2⟩
      simp [sessionInitTimeouts, validateTimeouts, convertTimeout, PyFloat.lt, hq]

/-- Witness for C10: the in-range float 7.5 fills only the three queue
operation timeouts, and the out-of-range float 0.0 raises ValueError. -/
theorem session_float_timeout_scope_witness :
    sessionInitTimeouts (.asFloat (.val (.fin (15 / 2)))) =
      .ok ⟨none, none, some (.fin (15 / 2)), some (.fin (15 / 2)),
        some (.fin (15 / 2))⟩ ∧
    sessionInitTimeouts (.asFloat (.val (.fin 0))) =
      .error (.valueErr "timeout must be greater than 0.0, was" (.fin 0)) := by
  constructor
  · exact session_float_timeout_scope.1 (.fin (15 / 2))
      ⟨15 / 2, rfl, by norm_num, by norm_num⟩
  · exact session_float_timeout_scope.2.1 (.fin 0)
      (by rintro ⟨q, hq, h0, _⟩; cases hq; exact absurd h0 (by norm_num))

/-- C8: on a session whose host-health monitoring is disabled, any
open_queue or configure_queue call whose options set
suspends_on_bad_host_health to True raises Error before any engine call;
and open_queue with read requested raises Error before any engine call when
no message callback was supplied at construction. -/
theorem host_health_and_read_validation :
    (∀ (s : SessionState) uri read write opts (t : TimeoutArg),
      s.monitorHostHealth = false →
      opts.suspendsOnBadHostHealth = some true →
      (∃ m, openQueue s uri read write opts t = .error (.bmqError m)) ∧
      (∃ m, configureQueue s uri opts t = .error (.bmqError m))) ∧
    (∀ (s : SessionState) uri write opts (t : TimeoutArg),
      s.hasNoOnMessage = true →
      ∃ m, openQueue s uri true write opts t = .error (.bmqError m)) := by
  constructor
  · intro s uri read write opts t hmon hsus
    constructor
    · by_cases hr : (read && s.hasNoOnMessage) = true
      · exact ⟨"Can" ++ sq ++ "t open queue " ++ uri ++
          " in read mode: no on_message " ++
          "callback was provided at Session construction",
          by simp [openQueue, hr]⟩
      · exact ⟨"Queues cannot use suspends_on_bad_host_health if host health" ++
          " monitoring was disabled when the Session was created", by
          simp only [Bool.not_eq_true] at hr
          simp [openQueue, hr, truthyOptBool, hsus, hmon]⟩
    · exact ⟨"Queues cannot use suspends_on_bad_host_health if host health" ++
        " monitoring was disabled when the Session was created",
        by simp [configureQueue, truthyOptBool, hsus, hmon]⟩
  · intro s uri write opts t hcb
    exact ⟨"Can" ++ sq ++ "t open queue " ++ uri ++
      " in read mode: no on_message " ++
      "callback was provided at Session construction",
      by simp [openQueue, hcb]⟩

/-- Witness for C8 at concrete inputs: a monitoring-disabled session
rejects suspends_on_bad_host_health on both operations, and a session
without a message callback rejects read-mode open_queue. -/
theorem host_health_and_read_validation_witness :
    (∃ m, openQueue ⟨false, false⟩ "q" false true
      ⟨none, none, none, some true⟩ .defaultSentinel = .error (.bmqError m)) ∧
    (∃ m, configureQueue ⟨false, false⟩ "q"
      ⟨none, none, none, some true⟩ .defaultSentinel = .error (.bmqError m)) ∧
    (∃ m, openQueue ⟨true, true⟩ "q" true false
      QueueOptionsM.defaults .defaultSentinel = .error (.bmqError m)) := by
  refine ⟨?_, ?_, ?_⟩
  · exact (host_health_and_read_validation.1 ⟨false, false⟩ "q" false true
      ⟨none, none, none, some true⟩ .defaultSentinel rfl rfl).1
  · exact (host_health_and_read_validation.1 ⟨false, false⟩ "q" false true
      ⟨none, none, none, some true⟩ .defaultSentinel rfl rfl).2
  · exact host_health_and_read_validation.2 ⟨true, true⟩ "q" false
      QueueOptionsM.defaults .defaultSentinel rfl

/-- C5: for a per-queue session event whose type maps to one of the
success classes QueueSuspended, QueueResumed or QueueReopened, the user
callback receives the success class exactly when the status code is zero
and the paired failure class exactly when it is non-zero; the event always
carries the queue URI, and on failure the message is built from the error
description, the status name and the status code. -/
theorem per_queue_event_success_failure (mapping : List (Int × EventClass))
    (et sc : Int) (eventName statusName desc uri : String)
    (c fc : EventClass) (hm : lookupA mapping et = some c)
    (hc : failureClassBySuccessClass c = some fc) (hu : uri ≠ "") :
    onSessionEvent mapping desc (some (et, eventName, sc, statusName, uri)) =
      .ok (.queueEv (if sc = 0 then c else fc) uri
        (if sc = 0 then none
         else some (desc ++ (if desc ≠ "" then ": " else "") ++ statusName ++
           " (" ++ toString sc ++ ")"))) := by
  cases c <;> simp only [failureClassBySuccessClass, Option.some.injEq,
      reduceCtorEq] at hc <;> subst hc <;>
    by_cases hsc : sc = 0 <;>
      simp [onSessionEvent, hm, hsc, hu, EventClass.isQueueEvent,
        failureClassBySuccessClass]

/-- Witness for C5 at concrete inputs: a QueueSuspended-typed event with
status 0 delivers QueueSuspended with the URI and no message, and the same
event with status 3 delivers QueueSuspendFailed with a message naming the
status and code. -/
theorem per_queue_event_success_failure_witness :
    onSessionEvent [((9 : Int), .QueueSuspended)] ""
        (some (9, "QueueSuspended", 0, "SUCCESS", "bmq://q")) =
      .ok (.queueEv .QueueSuspended "bmq://q" none) ∧
    onSessionEvent [((9 : Int), .QueueSuspended)] "e"
        (some (9, "QueueSuspended", 3, "CANCELED", "bmq://q")) =
      .ok (.queueEv .QueueSuspendFailed "bmq://q" (some "e: CANCELED (3)")) := by
  constructor
  · have h := per_queue_event_success_failure [((9 : Int), .QueueSuspended)]
      9 0 "QueueSuspended" "SUCCESS" "" "bmq://q" .QueueSuspended
      .QueueSuspendFailed (by simp [lookupA]) rfl (by simp)
    simpa using h
  · have h := per_queue_event_success_failure [((9 : Int), .QueueSuspended)]
      9 3 "QueueSuspended" "CANCELED" "e" "bmq://q" .QueueSuspended
      .QueueSuspendFailed (by simp [lookupA]) rfl (by simp)
    simpa using h

/-- C6: anomalies seen during asynchronous dispatch are delivered to the
user callback as InterfaceError session events rather than raised: an
inbound session event whose type code is not in the event-type mapping is
delivered as InterfaceError with a message naming the unexpected event
type, and a message delivered with no message callback configured is
delivered as an InterfaceError reading "Messages received but no callback
configured". -/
theorem dispatch_anomaly_interface_error :
    (∀ (mapping : List (Int × EventClass)) desc (et sc : Int)
        (eventName statusName uri : String),
      lookupA mapping et = none →
      onSessionEvent mapping desc (some (et, eventName, sc, statusName, uri)) =
        .ok (.plain .InterfaceError (some ("Unexpected event type: " ++ eventName)))) ∧
    onMessageCreateInterfaceError =
      .plain .InterfaceError (some "Messages received but no callback configured") := by
  constructor
  · intro mapping desc et sc eventName statusName uri hm
    simp [onSessionEvent, hm, EventClass.isQueueEvent]
  · rfl

/-- Witness for C6 at a concrete input: event type 777 with an empty
mapping is delivered as an InterfaceError naming the event type. -/
theorem dispatch_anomaly_interface_error_witness :
    onSessionEvent [] "" (some ((777 : Int), "Abracadabra", 42, "NOT_SUCCESS", "")) =
      .ok (.plain .InterfaceError (some "Unexpected event type: Abracadabra")) := by
  have h := dispatch_anomaly_interface_error.1 [] "" 777 42
    "Abracadabra" "NOT_SUCCESS" "" rfl
  simpa using h

/-- C7: the ack-dispatch entry point invokes the registered callbacks once
each, in batch order, with an Ack carrying the GUID of the entry, queue URI,
status description, and the status mapped through the known-status mapping
with UNRECOGNIZED as the default for unknown wire codes. -/
theorem ack_dispatch_order_and_mapping (mapping : List (Int × AckStatus))
    (acks : List (AckEntry Nat)) :
    (onAck mapping acks).length = acks.length ∧
    ∀ i : Nat, (onAck mapping acks)[i]? =
      (acks[i]?).map (fun a =>
        (a.userCallback,
          (⟨a.guid, (lookupA mapping a.status).getD .UNRECOGNIZED,
            a.statusDescription, a.queueUri⟩ : AckV))) := by
  constructor
  · simp [onAck]
  · intro i
    simp [onAck]

/-- Helper: a successful delivery loop delivers one message per batch
entry. -/
theorem deliverBatch_length (pt : List (Int × PropertyType)) :
    ∀ msgs l, deliverBatch pt msgs = .ok l → l.length = msgs.length := by
  intro msgs
  induction msgs with
  | nil =>
    intro l h
    simp only [deliverBatch, Except.ok.injEq] at h
    subst h
    rfl
  | cons m rest ih =>
    intro l h
    simp only [deliverBatch] at h
    cases hdt : decodePropTypes pt m.propTypeCodes with
    | error e => rw [hdt] at h; cases h
    | ok tys =>
      rw [hdt] at h
      cases hrest : deliverBatch pt rest with
      | error e => rw [hrest] at h; cases h
      | ok tail =>
        rw [hrest] at h
        simp only [Except.ok.injEq] at h
        subst h
        simp [ih tail hrest]

/-- C4: whenever the message-dispatch entry point finishes delivering a
batch (so it returns rather than raising), the refcount check has run: the
process is aborted exactly when the observed reference count on the
extension session is 2 after the MessageHandle release, a deadlock
diagnostic is emitted exactly in that case, and the whole batch was
delivered first. -/
theorem deadlock_detection_on_message (pt : List (Int × PropertyType))
    (msgs : List MsgEntry) (rc : Nat) (r : OnMessageResult)
    (h : onMessage true pt msgs rc = .ok r) :
    (r.aborted = true ↔ rc = 2) ∧
    (rc = 2 → r.diagnostic =
      some "Deadlock detected by blazingmq after calling the message callback; aborting process.") ∧
    (rc ≠ 2 → r.diagnostic = none) ∧
    r.delivered.length = msgs.length := by
  cases hd : deliverBatch pt msgs with
  | error e => simp [onMessage, hd] at h
  | ok delivered =>
    by_cases he : msgs.isEmpty
    · simp [onMessage, hd, he] at h
    · by_cases hrc : rc = 2
      · simp [onMessage, hd, he, hrc] at h
        subst h
        simp [hrc, deliverBatch_length pt msgs delivered hd]
      · simp [onMessage, hd, he, hrc] at h
        subst h
        simp [hrc, deliverBatch_length pt msgs delivered hd]

/-- Witness for C4 at a concrete input: a one-message batch observed with
refcount 2 aborts with the diagnostic, and the same batch with refcount 3
does not abort. -/
theorem deadlock_detection_on_message_witness :
    (((⟨[⟨[1], [2], "q", [], []⟩], some "Deadlock detected by blazingmq after calling the message callback; aborting process.", true⟩ : OnMessageResult).aborted = true ↔ (2 : Nat) = 2) ∧
      ((2 : Nat) = 2 → (some "Deadlock detected by blazingmq after calling the message callback; aborting process." : Option String) =
        some "Deadlock detected by blazingmq after calling the message callback; aborting process.") ∧
      ((2 : Nat) ≠ 2 → (some "Deadlock detected by blazingmq after calling the message callback; aborting process." : Option String) = none) ∧
      ([(⟨[1], [2], "q", [], []⟩ : MessageV)].length = [(⟨[1], [2], "q", [], []⟩ : MsgEntry)].length)) ∧
    onMessage true [] [⟨[1], [2], "q", [], []⟩] 3 =
      .ok ⟨[⟨[1], [2], "q", [], []⟩], none, false⟩ := by
  constructor
  · exact deadlock_detection_on_message [] [⟨[1], [2], "q", [], []⟩] 2
      ⟨[⟨[1], [2], "q", [], []⟩], some "Deadlock detected by blazingmq after calling the message callback; aborting process.", true⟩
      (by rfl)
  · rfl

/-- C3: for an unhealthy-then-healthy host-health cycle with N currently
open queues having suspends_on_bad_host_health = true, the emitted trace is
exactly N per-queue QueueSuspended-or-QueueSuspendFailed events, then the
single HostUnhealthy event, then N per-queue
QueueResumed-or-QueueResumeFailed events, then the single
HostHealthRestored event, the per-queue events pairing up with the
suspendable queues in order. -/
theorem host_health_cycle_ordering (queues : List BridgeQueue)
    (suspendOk resumeOk : String → Bool) :
    ∃ sus res : List SessionEventV,
      bridgeCycleEvents queues suspendOk resumeOk =
        sus ++ [.plain .HostUnhealthy none] ++ res ++
          [.plain .HostHealthRestored none] ∧
      sus.length = (queues.filter fun q => q.suspendsOnBadHostHealth).length ∧
      res.length = (queues.filter fun q => q.suspendsOnBadHostHealth).length ∧
      (∀ i : Nat, sus[i]? =
        ((queues.filter fun q => q.suspendsOnBadHostHealth)[i]?).map
          (fun q => if suspendOk q.uri then .queueEv .QueueSuspended q.uri none
            else .queueEv .QueueSuspendFailed q.uri none)) ∧
      (∀ i : Nat, res[i]? =
        ((queues.filter fun q => q.suspendsOnBadHostHealth)[i]?).map
          (fun q => if resumeOk q.uri then .queueEv .QueueResumed q.uri none
            else .queueEv .QueueResumeFailed q.uri none)) := by
  refine ⟨(queues.filter fun q => q.suspendsOnBadHostHealth).map
      (fun q => if suspendOk q.uri then .queueEv .QueueSuspended q.uri none
        else .queueEv .QueueSuspendFailed q.uri none),
    (queues.filter fun q => q.suspendsOnBadHostHealth).map
      (fun q => if resumeOk q.uri then .queueEv .QueueResumed q.uri none
        else .queueEv .QueueResumeFailed q.uri none),
    ?_, by simp, by simp, by intro i; simp, by intro i; simp⟩
  simp [bridgeCycleEvents, bridgeUnhealthyEvents, bridgeHealthyEvents]

/-- Helper: a key is in the keys of an upserted dict exactly when it is the
upserted key or was a key already. -/
theorem mem_keys_upsert {κ α : Type} [DecidableEq κ] (l : List (κ × α))
    (k : κ) (v : α) (x : κ) :
    x ∈ (upsert l k v).map Prod.fst ↔ x = k ∨ x ∈ l.map Prod.fst := by
  induction l with
  | nil => simp [upsert]
  | cons p t ih =>
    obtain ⟨a, b⟩ := p
    by_cases hak : a = k
    · subst hak
      simp [upsert]
    · simp [upsert, hak, ih]
      tauto

/-- Helper: a dict update keeps the keys pairwise distinct. -/
theorem upsert_keysNodup {κ α : Type} [DecidableEq κ] (l : List (κ × α))
    (k : κ) (v : α) (h : KeysNodup l) : KeysNodup (upsert l k v) := by
  induction l with
  | nil => simp [KeysNodup, upsert]
  | cons p t ih =>
    obtain ⟨a, b⟩ := p
    simp only [KeysNodup, List.map_cons, List.nodup_cons] at h
    by_cases hak : a = k
    · subst hak
      simpa [KeysNodup, upsert] using h
    · have ht := ih h.2
      simp only [KeysNodup, upsert, hak, if_false, List.map_cons, List.nodup_cons]
      refine ⟨?_, ht⟩
      rw [mem_keys_upsert]
      rintro (rfl | hx)
      · exact hak rfl
      · exact h.1 hx

/-- Helper: in a dict with distinct keys, a member pair is what lookup
finds. -/
theorem lookupA_of_mem {κ α : Type} [DecidableEq κ] (l : List (κ × α))
    (k : κ) (v : α) (hn : KeysNodup l) (hm : (k, v) ∈ l) :
    lookupA l k = some v := by
  induction l with
  | nil => cases hm
  | cons p t ih =>
    obtain ⟨a, b⟩ := p
    simp only [KeysNodup, List.map_cons, List.nodup_cons] at hn
    rcases List.mem_cons.mp hm with heq | hmt
    · rw [Prod.mk.injEq] at heq
      obtain ⟨h1, h2⟩ := heq
      subst h1
      subst h2
      simp [lookupA]
    · have hak : a ≠ k := by
        rintro rfl
        exact hn.1 (List.mem_map.mpr ⟨(a, v), hmt, rfl⟩)
      simp [lookupA, hak, ih hn.2 hmt]

/-- Helper: every supported value has an inferred default type. -/
theorem inferDefaultType_ok_of_supported (v : PyValue)
    (h : ∀ tyn, v ≠ .vother tyn) : ∃ t, inferDefaultType v = .ok t := by
  cases v with
  | vbool b => exact ⟨.BOOL, rfl⟩
  | vint n => exact ⟨.INT64, rfl⟩
  | vstr s => exact ⟨.STRING, rfl⟩
  | vbytes b => exact ⟨.BINARY, rfl⟩
  | vother tyn => exact absurd rfl (h tyn)

/-- Helper: the first collection loop preserves the property that every
value in the values dict has its inferred type in the types dict. -/
theorem collectPhase1_inferredOk :
    ∀ (items : List (PyName × PyValue)) vals types out,
      collectPhase1 items vals types = .ok out → InferredOk vals types →
      InferredOk out.1 out.2 := by
  intro items
  induction items with
  | nil =>
    intro vals types out h hinv
    simp only [collectPhase1, Except.ok.injEq] at h
    subst h
    exact hinv
  | cons p rest ih =>
    intro vals types out h hinv
    obtain ⟨name, val⟩ := p
    simp only [collectPhase1] at h
    cases hty : inferDefaultType val with
    | error e => rw [hty] at h; cases h
    | ok ty =>
      rw [hty] at h
      refine ih _ _ _ h ?_
      intro k v hk
      rw [lookupA_upsert] at hk
      by_cases hkk : k = ensureBinary name
      · rw [if_pos hkk] at hk
        obtain rfl := Option.some.inj hk
        exact ⟨ty, hty, by rw [lookupA_upsert, if_pos hkk]⟩
      · rw [if_neg hkk] at hk
        obtain ⟨t, hti, htl⟩ := hinv k v hk
        exact ⟨t, hti, by rw [lookupA_upsert, if_neg hkk]; exact htl⟩

/-- Helper: the first collection loop keeps the values dict keys pairwise
distinct. -/
theorem collectPhase1_keysNodup :
    ∀ (items : List (PyName × PyValue)) vals types out,
      collectPhase1 items vals types = .ok out → KeysNodup vals →
      KeysNodup out.1 := by
  intro items
  induction items with
  | nil =>
    intro vals types out h hn
    simp only [collectPhase1, Except.ok.injEq] at h
    subst h
    exact hn
  | cons p rest ih =>
    intro vals types out h hn
    obtain ⟨name, val⟩ := p
    simp only [collectPhase1] at h
    cases hty : inferDefaultType val with
    | error e => rw [hty] at h; cases h
    | ok ty =>
      rw [hty] at h
      exact ih _ _ _ h (upsert_keysNodup _ _ _ hn)

/-- Helper: a batch containing an unsupported value makes the first
collection loop raise the unsupported-type Error. -/
theorem collectPhase1_error_of_unsupported :
    ∀ (items : List (PyName × PyValue)) vals types,
      (∃ p ∈ items, ∃ tyn, p.2 = PyValue.vother tyn) →
      ∃ tyn, collectPhase1 items vals types =
        .error (.bmqError
          ("Property values of type " ++ sq ++ tyn ++ sq ++ " are not supported")) := by
  intro items
  induction items with
  | nil =>
    intro vals types h
    obtain ⟨p, hp, _⟩ := h
    cases hp
  | cons p rest ih =>
    intro vals types h
    obtain ⟨name, val⟩ := p
    by_cases hval : ∃ tyn, val = PyValue.vother tyn
    · obtain ⟨tyn, rfl⟩ := hval
      exact ⟨tyn, by simp [collectPhase1, inferDefaultType, PyValue.isinstBool,
        PyValue.isinstInt, PyValue.isinstStr, PyValue.isinstBytes, PyValue.typeName]⟩
    · obtain ⟨q, hq, tyn, hqt⟩ := h
      have hqrest : q ∈ rest := by
        rcases List.mem_cons.mp hq with rfl | hmt
        · exact absurd ⟨tyn, hqt⟩ hval
        · exact hmt
      obtain ⟨t, hti⟩ := inferDefaultType_ok_of_supported val
        (fun tn hn => hval ⟨tn, hn⟩)
      obtain ⟨tn2, hrec⟩ := ih (upsert vals (ensureBinary name) val)
        (upsert types (ensureBinary name) t) ⟨q, hqrest, tyn, hqt⟩
      exact ⟨tn2, by simp [collectPhase1, hti, hrec]⟩

/-- Helper: every entry of the merged output comes from a values-dict entry
whose recorded type it carries, with the value encoded accordingly. -/
theorem mergeAll_mem :
    ∀ (types : List (List Nat × PropertyType)) vals out,
      mergeAll types vals = .ok out →
      ∀ k w ty, (k, w, ty) ∈ out →
        ∃ v, (k, v) ∈ vals ∧ lookupA types k = some ty ∧ w = encodeVal v ty := by
  intro types vals
  induction vals with
  | nil =>
    intro out h k w ty hm
    simp only [mergeAll, Except.ok.injEq] at h
    subst h
    cases hm
  | cons p rest ih =>
    intro out h k w ty hm
    obtain ⟨nameBytes, v⟩ := p
    simp only [mergeAll] at h
    cases hl : lookupA types nameBytes with
    | none => rw [hl] at h; cases h
    | some ty0 =>
      rw [hl] at h
      cases hrest : mergeAll types rest with
      | error e => rw [hrest] at h; cases h
      | ok tail =>
        rw [hrest] at h
        simp only [Except.ok.injEq] at h
        subst h
        rcases List.mem_cons.mp hm with heq | hmt
        · rw [Prod.mk.injEq] at heq
          obtain ⟨rfl, heq2⟩ := heq
          rw [Prod.mk.injEq] at heq2
          obtain ⟨h1, h2⟩ := heq2
          subst h1
          subst h2
          exact ⟨v, List.mem_cons_self _ _, by rw [hl], rfl⟩
        · obtain ⟨v2, hv2, hlk, hw⟩ := ih tail hrest k w ty hmt
          exact ⟨v2, List.mem_cons_of_mem _ hv2, hlk, hw⟩

/-- Helper: an encoded property value is a bool only if the supplied value
was that bool (encoding only rewrites str values under the STRING tag). -/
theorem encodeVal_eq_vbool (v : PyValue) (ty : PropertyType) (b : Bool)
    (h : encodeVal v ty = .vbool b) : v = .vbool b := by
  cases v with
  | vstr s =>
    by_cases hty : ty = .STRING <;>
      simp [encodeVal, hty, PyValue.isinstStr] at h
  | vbool b2 => simpa [encodeVal, PyValue.isinstStr] using h
  | vint n => simp [encodeVal, PyValue.isinstStr] at h
  | vbytes b2 => simp [encodeVal, PyValue.isinstStr] at h
  | vother tyn => simp [encodeVal, PyValue.isinstStr] at h

/-- Helper: a batch with only supported values passes the first collection
loop. -/
theorem collectPhase1_ok_of_supported :
    ∀ (items : List (PyName × PyValue)) vals types,
      (∀ p ∈ items, ∀ tyn, p.2 ≠ PyValue.vother tyn) →
      ∃ out, collectPhase1 items vals types = .ok out := by
  intro items
  induction items with
  | nil => intro vals types _; exact ⟨(vals, types), rfl⟩
  | cons p rest ih =>
    intro vals types h
    obtain ⟨name, val⟩ := p
    obtain ⟨t, hti⟩ := inferDefaultType_ok_of_supported val
      (h (name, val) (List.mem_cons_self _ _))
    obtain ⟨out, hout⟩ := ih (upsert vals (ensureBinary name) val)
      (upsert types (ensureBinary name) t)
      (fun q hq => h q (List.mem_cons_of_mem _ hq))
    exact ⟨out, by simp [collectPhase1, hti, hout]⟩

/-- Helper: a key absent from the initial types dict and not introduced by
any batch entry is still absent after the first collection loop. -/
theorem collectPhase1_types_none :
    ∀ (items : List (PyName × PyValue)) vals types out,
      collectPhase1 items vals types = .ok out →
      ∀ k, lookupA types k = none →
        (∀ p ∈ items, ensureBinary p.1 ≠ k) → lookupA out.2 k = none := by
  intro items
  induction items with
  | nil =>
    intro vals types out h k hk _
    simp only [collectPhase1, Except.ok.injEq] at h
    subst h
    exact hk
  | cons p rest ih =>
    intro vals types out h k hk hni
    obtain ⟨name, val⟩ := p
    simp only [collectPhase1] at h
    cases hty : inferDefaultType val with
    | error e => rw [hty] at h; cases h
    | ok ty =>
      rw [hty] at h
      refine ih _ _ _ h k ?_ (fun q hq => hni q (List.mem_cons_of_mem _ hq))
      rw [lookupA_upsert,
        if_neg (fun hkk => hni (name, val) (List.mem_cons_self _ _) hkk.symm)]
      exact hk

/-- Helper: an override whose key is absent from the types dict makes the
override loop raise the non-existent-property Error (the earlier overrides
only rewrite existing keys, so the absence is preserved until the failing
override is reached). -/
theorem applyOverrides_error_of_missing :
    ∀ (overrides : List (PyName × PropertyType)) types,
      (∃ o ∈ overrides, lookupA types (ensureBinary o.1) = none) →
      ∃ nm, applyOverrides types overrides =
        .error (.bmqError ("Received override for non-existent property " ++ nm)) := by
  intro overrides
  induction overrides with
  | nil =>
    intro types h
    obtain ⟨o, ho, _⟩ := h
    cases ho
  | cons p rest ih =>
    intro types h
    obtain ⟨name, ty⟩ := p
    by_cases hl : lookupA types (ensureBinary name) = none
    · exact ⟨name.pyRepr, by simp [applyOverrides, hl]⟩
    · obtain ⟨o, ho, hol⟩ := h
      have horest : o ∈ rest := by
        rcases List.mem_cons.mp ho with rfl | hmt
        · exact absurd hol hl
        · exact hmt
      have holn : lookupA (upsert types (ensureBinary name) ty)
          (ensureBinary o.1) = none := by
        rw [lookupA_upsert, if_neg (fun hkk => by rw [hkk] at hol; exact hl hol)]
        exact hol
      obtain ⟨nm, hrec⟩ := ih (upsert types (ensureBinary name) ty) ⟨o, horest, holn⟩
      refine ⟨nm, ?_⟩
      simp only [applyOverrides]
      rw [if_neg (by simp [Option.isNone_iff_eq_none, hl])]
      exact hrec

/-- C1: with no type-tag override, post infers each property tag from the
value type: a bool maps to BOOL (never INT64, the bool branch being tested
before the int branch), an int to INT64, a str to STRING with the value
UTF-8 encoded on the way out, bytes to BINARY; a value of any other type
makes the whole call fail with the unsupported-property-type Error before
the engine call is built. -/
theorem prop_default_type_inference :
    (∀ (uri : String) (msg : List Nat) (n : PyName) (v : PyValue) (ack : Bool),
      post uri msg [(n, v)] [] ack =
        match v with
        | .vbool b =>
          .ok ⟨utf8Bytes uri, msg, some [(ensureBinary n, .vbool b, .BOOL)], ack⟩
        | .vint i =>
          .ok ⟨utf8Bytes uri, msg, some [(ensureBinary n, .vint i, .INT64)], ack⟩
        | .vstr s =>
          .ok ⟨utf8Bytes uri, msg,
            some [(ensureBinary n, .vbytes (utf8Bytes s), .STRING)], ack⟩
        | .vbytes b =>
          .ok ⟨utf8Bytes uri, msg, some [(ensureBinary n, .vbytes b, .BINARY)], ack⟩
        | .vother tyn =>
          .error (.bmqError
            ("Property values of type " ++ sq ++ tyn ++ sq ++ " are not supported"))) ∧
    (∀ (uri : String) (msg : List Nat) props (ack : Bool),
      (∃ p ∈ props, ∃ tyn, p.2 = PyValue.vother tyn) →
      ∃ tyn, post uri msg props [] ack =
        .error (.bmqError
          ("Property values of type " ++ sq ++ tyn ++ sq ++ " are not supported"))) ∧
    (∀ props out, collectPropertiesAndTypes props [] = .ok out →
      ∀ k b ty, (k, PyValue.vbool b, ty) ∈ out → ty = .BOOL) := by
  refine ⟨?_, ?_, ?_⟩
  · intro uri msg n v ack
    cases v <;>
      simp [post, collectPropertiesAndTypes, collectPhase1, inferDefaultType,
        PyValue.isinstBool, PyValue.isinstInt, PyValue.isinstStr,
        PyValue.isinstBytes, PyValue.typeName, applyOverrides, mergeAll,
        upsert, lookupA, encodeVal, ensureBinary]
  · intro uri msg props ack hex
    obtain ⟨tyn, hph⟩ := collectPhase1_error_of_unsupported props [] [] hex
    obtain ⟨p, hp, _⟩ := hex
    cases props with
    | nil => cases hp
    | cons a l =>
      exact ⟨tyn, by simp [post, collectPropertiesAndTypes, hph]⟩
  · intro props out hcol k b ty hmem
    simp only [collectPropertiesAndTypes] at hcol
    cases hph : collectPhase1 props [] [] with
    | error e => rw [hph] at hcol; cases hcol
    | ok valsTypes =>
      rw [hph] at hcol
      obtain ⟨vals, types⟩ := valsTypes
      simp only [applyOverrides] at hcol
      obtain ⟨v, hvmem, hlook, hw⟩ := mergeAll_mem types vals out hcol k _ ty hmem
      obtain rfl := encodeVal_eq_vbool v ty b hw.symm
      have hnodup : KeysNodup vals :=
        collectPhase1_keysNodup props [] [] (vals, types) hph (by simp [KeysNodup])
      have hinv : InferredOk vals types :=
        collectPhase1_inferredOk props [] [] (vals, types) hph
          (fun k2 v2 hk2 => by simp [lookupA] at hk2)
      obtain ⟨t, hti, htl⟩ := hinv k _ (lookupA_of_mem vals k _ hnodup hvmem)
      have hbool : t = PropertyType.BOOL := by
        simpa [inferDefaultType, PyValue.isinstBool] using hti.symm
      rw [hlook] at htl
      obtain rfl := Option.some.inj htl
      exact hbool.symm ▸ rfl

/-- Witness for C1 at concrete inputs: one property of each supported type
gets its inferred tag, and a float-valued property fails the call. -/
theorem prop_default_type_inference_witness :
    post "q" [1] [(.nstr "b", .vbool true)] [] false =
      .ok ⟨utf8Bytes "q", [1], some [(utf8Bytes "b", .vbool true, .BOOL)], false⟩ ∧
    post "q" [1] [(.nstr "i", .vint 65536)] [] false =
      .ok ⟨utf8Bytes "q", [1], some [(utf8Bytes "i", .vint 65536, .INT64)], false⟩ ∧
    post "q" [1] [(.nstr "s", .vstr "x")] [] false =
      .ok ⟨utf8Bytes "q", [1],
        some [(utf8Bytes "s", .vbytes (utf8Bytes "x"), .STRING)], false⟩ ∧
    post "q" [1] [(.nstr "y", .vbytes [97, 0, 98])] [] false =
      .ok ⟨utf8Bytes "q", [1],
        some [(utf8Bytes "y", .vbytes [97, 0, 98], .BINARY)], false⟩ ∧
    post "q" [1] [(.nstr "f", .vother "float")] [] false =
      .error (.bmqError
        ("Property values of type " ++ sq ++ "float" ++ sq ++ " are not supported")) := by
  have h := prop_default_type_inference.1
  exact ⟨h "q" [1] (.nstr "b") (.vbool true) false,
    h "q" [1] (.nstr "i") (.vint 65536) false,
    h "q" [1] (.nstr "s") (.vstr "x") false,
    h "q" [1] (.nstr "y") (.vbytes [97, 0, 98]) false,
    h "q" [1] (.nstr "f") (.vother "float") false⟩

/-- C9: a property-type override whose normalized name has no property
value in the same call fails with the non-existent-property Error before
any engine call, in particular whenever overrides are supplied without any
properties; an override whose normalized name does have a value (str and
bytes names agreeing after UTF-8 normalization) replaces the inferred tag
for that property. -/
theorem override_requires_existing_property :
    (∀ (uri : String) (msg : List Nat) (name : PyName) (ty : PropertyType)
        rest (ack : Bool),
      post uri msg [] ((name, ty) :: rest) ack =
        .error (.bmqError
          ("Received override for non-existent property " ++ name.pyRepr))) ∧
    (∀ (uri : String) (msg : List Nat) props overrides (ack : Bool),
      (∀ p ∈ props, ∀ tyn, p.2 ≠ PyValue.vother tyn) →
      (∃ o ∈ overrides, ∀ p ∈ props, ensureBinary p.1 ≠ ensureBinary o.1) →
      ∃ nm, post uri msg props overrides ack =
        .error (.bmqError ("Received override for non-existent property " ++ nm))) ∧
    (∀ (uri : String) (msg : List Nat) (n n2 : PyName) v ty t0 (ack : Bool),
      ensureBinary n2 = ensureBinary n →
      inferDefaultType v = .ok t0 →
      post uri msg [(n, v)] [(n2, ty)] ack =
        .ok ⟨utf8Bytes uri, msg, some [(ensureBinary n, encodeVal v ty, ty)], ack⟩) := by
  refine ⟨?_, ?_, ?_⟩
  · intro uri msg name ty rest ack
    simp [post, collectPropertiesAndTypes, collectPhase1, applyOverrides, lookupA]
  · intro uri msg props overrides ack hsup hmiss
    obtain ⟨valsTypes, hph⟩ := collectPhase1_ok_of_supported props [] [] hsup
    obtain ⟨vals, types⟩ := valsTypes
    obtain ⟨o, ho, hok⟩ := hmiss
    have hnone : lookupA types (ensureBinary o.1) = none :=
      collectPhase1_types_none props [] [] (vals, types) hph _ rfl
        (fun p hp => hok p hp)
    obtain ⟨nm, hov⟩ := applyOverrides_error_of_missing overrides types ⟨o, ho, hnone⟩
    cases overrides with
    | nil => cases ho
    | cons a l =>
      exact ⟨nm, by simp [post, collectPropertiesAndTypes, hph, hov]⟩
  · intro uri msg n n2 v ty t0 ack hnn hti
    have hcol : collectPropertiesAndTypes [(n, v)] [(n2, ty)] =
        .ok [(ensureBinary n, encodeVal v ty, ty)] := by
      simp only [collectPropertiesAndTypes, collectPhase1, hti, upsert,
        applyOverrides, lookupA, hnn]
      simp [mergeAll, lookupA, upsert]
    simp [post, hcol, ensureBinary]

/-- Witness for C9 at concrete inputs: an override with no properties at
all fails, an override naming a missing property fails, and a bytes-named
override replaces the tag inferred for the matching str-named property. -/
theorem override_requires_existing_property_witness :
    post "q" [1] [] [(.nstr "Bool", .SHORT)] false =
      .error (.bmqError
        ("Received override for non-existent property " ++ (PyName.nstr "Bool").pyRepr)) ∧
    (∃ nm, post "q" [1] [(.nstr "a", .vint 1)] [(.nstr "b", .SHORT)] false =
      .error (.bmqError ("Received override for non-existent property " ++ nm))) ∧
    post "q" [1] [(.nstr "a", .vbool true)] [(.nbytes [97], .SHORT)] false =
      .ok ⟨utf8Bytes "q", [1], some [(utf8Bytes "a", .vbool true, .SHORT)], false⟩ := by
  refine ⟨?_, ?_, ?_⟩
  · exact override_requires_existing_property.1 "q" [1] (.nstr "Bool") .SHORT [] false
  · exact override_requires_existing_property.2.1 "q" [1]
      [(.nstr "a", .vint 1)] [(.nstr "b", .SHORT)] false
      (by intro p hp tyn; simp at hp; subst hp; simp)
      ⟨(.nstr "b", .SHORT), by simp, by intro p hp; simp at hp; subst hp; decide⟩
  · have h := override_requires_existing_property.2.2 "q" [1]
      (.nstr "a") (.nbytes [97]) (.vbool true) .SHORT .BOOL false (by decide) rfl
    simpa [encodeVal, PyValue.isinstStr] using h

end BMQ
